import Mathlib

/-!
Verification development for the FDD CoPilot document question-answering app
(`raushan_app.py`).  Text is modelled as `List Char`; the Python string
operations used by the app (`in`, `split`, `strip`, `join`, slicing) are
embedded below with their exact Python semantics.  The Streamlit submit
handler (lines 119-169) and the document-processing loop (lines 45-66) are
embedded as pure functions over explicit state, with the external
collaborators (vector index, embedding service, LLM endpoint) passed in as
oracle functions and every external call recorded in an explicit call list.
-/

namespace FDD

/-- Text is modelled as a list of characters. -/
abbrev Text := List Char

/-- ASCII whitespace as recognised by Python `str.strip()`. -/
def pyIsSpace (c : Char) : Bool :=
  c = ' ' || c = '\t' || c = '\n' || c = '\r' || c = '\x0b' || c = '\x0c'

/-- Remove trailing whitespace characters (the right half of Python `strip`). -/
def dropTrailingSpace : Text → Text
  | [] => []
  | c :: rest =>
    match dropTrailingSpace rest with
    | [] => if pyIsSpace c then [] else [c]
    | r => c :: r

/-- Python `str.strip()`: remove leading and trailing whitespace. -/
def stripChars (s : Text) : Text :=
  dropTrailingSpace (List.dropWhile pyIsSpace s)

/-- Python `str.split(sep)` for a single-character separator, e.g.
`split("\n")` in line 147 of the app: split at every occurrence of the
character, keeping empty pieces. -/
def splitOnChar (ch : Char) : Text → List Text
  | [] => [[]]
  | c :: rest =>
    if c = ch then [] :: splitOnChar ch rest
    else
      match splitOnChar ch rest with
      | [] => [[c]]
      | h :: t => (c :: h) :: t

/-- Python substring test `pat in s`. -/
def containsSub (pat : Text) : Text → Bool
  | [] => pat.isEmpty
  | c :: rest => pat.isPrefixOf (c :: rest) || containsSub pat rest

/-- Decompose a text at the first (leftmost) occurrence of `pat`:
`some (before, after)` when `pat` occurs, `none` otherwise (for nonempty
`pat`). -/
def splitFirst (pat : Text) : Text → Option (Text × Text)
  | [] => none
  | c :: rest =>
    if pat.isPrefixOf (c :: rest) then some ([], (c :: rest).drop pat.length)
    else (splitFirst pat rest).map fun p => (c :: p.1, p.2)

/-- Python `str.split(sep)` for a nonempty multi-character separator, as used
on line 145 of the app: repeatedly cut at the leftmost occurrence of `pat`.
(Python raises on an empty separator; the `pat = []` guard below is a dead
branch kept only for totality.) -/
def splitOnList (pat : Text) (s : Text) : List Text :=
  match hs : splitFirst pat s with
  | none => [s]
  | some (bef, aft) =>
    if hp : pat = [] then [s]
    else bef :: splitOnList pat aft
termination_by s.length
decreasing_by
  have shrink : ∀ (u : Text) (b a : Text), pat ≠ [] →
      splitFirst pat u = some (b, a) → a.length < u.length := by
    intro u
    induction u with
    | nil => intro b a hpne h; simp [splitFirst] at h
    | cons c rest ih =>
      intro b a hpne h
      by_cases hpre : pat.isPrefixOf (c :: rest)
      · simp only [splitFirst, if_pos hpre, Option.some.injEq, Prod.mk.injEq] at h
        have ha : a = (c :: rest).drop pat.length := h.2.symm
        subst ha
        have hplen : 0 < pat.length := List.length_pos.mpr hpne
        simp only [List.length_drop, List.length_cons]
        omega
      · simp only [splitFirst, if_neg hpre, Option.map_eq_some'] at h
        obtain ⟨⟨b2, a2⟩, hrest, heq⟩ := h
        have := ih b2 a2 hpne hrest
        have ha : a2 = a := by
          have := congrArg Prod.snd heq
          simpa using this
        subst ha
        simp only [List.length_cons]
        omega
  exact shrink s bef aft hp hs

/-- Python `" ".join(chunks)` from line 125 of the app. -/
def joinSpace : List Text → Text
  | [] => []
  | [x] => x
  | x :: xs => x ++ ' ' :: joinSpace xs

/-- Append a character to the last piece of a split (helper used to state
how splitting interacts with appending a character). -/
def appendLast (c : Char) : List Text → List Text
  | [] => [[c]]
  | [x] => [x ++ [c]]
  | x :: y :: t => x :: appendLast c (y :: t)

/-- The literal marker scanned for on line 144 of the app. -/
def marker : Text := "Follow-up questions:".data

/-- Lines 142-149 of the app: if the marker occurs in the raw answer,
`main_response` is `split_response[0]` and the raw follow-up candidates are
`split_response[1].strip().split("\n")`; otherwise the whole text is the main
response and the candidate list is empty. -/
def parseResponse (response_text : Text) : Text × List Text :=
  if containsSub marker response_text then
    let split_response := splitOnList marker response_text
    (split_response.headD [], splitOnChar '\n' (stripChars (split_response.getD 1 [])))
  else
    (response_text, [])

/-- Lines 155-159 of the app: the follow-up questions actually shown are the
candidates whose `strip()` is non-empty, each displayed stripped, in order. -/
def displayedFollowUps : List Text → List Text
  | [] => []
  | follow_up :: rest =>
    if stripChars follow_up ≠ [] then stripChars follow_up :: displayedFollowUps rest
    else displayedFollowUps rest

/-- The user-observable result of the Response Parser: main answer together
with the follow-up questions as displayed (trimmed, blanks dropped). -/
def parse_displayed (response_text : Text) : Text × List Text :=
  ((parseResponse response_text).1, displayedFollowUps (parseResponse response_text).2)

/-- Modelled from the spec: the Response Parser as the specification words it
— everything before the marker is the main answer, everything after the
marker is split on newlines, each candidate trimmed of surrounding
whitespace, blank lines dropped; without the marker the whole text is the
main answer.  Used only to compare the code's parser against the spec. -/
def parser_spec (response_text : Text) : Text × List Text :=
  match splitFirst marker response_text with
  | none => (response_text, [])
  | some (bef, aft) =>
    (bef, ((splitOnChar '\n' aft).map stripChars).filter (fun q => !q.isEmpty))

/-- The marker occurs at most once in the text. -/
def marker_at_most_once (response_text : Text) : Bool :=
  match splitFirst marker response_text with
  | none => true
  | some (_, aft) => !containsSub marker aft

/-! ### The submit handler (lines 119-169) -/

/-- The three options of the "Retrieve Mode:" selectbox on line 29. -/
inductive RetrieveMode
  | textHybrid
  | vectorOnly
  | textOnly
deriving DecidableEq

/-- The request sent to the external LLM endpoint on lines 138-139:
`ChatGroq(model_name=selected_model, api_key=groq_api_key)` followed by
`invoke([{"role": "user", "content": prompt}])`.  Messages are
(role, content) pairs. -/
structure LLMRequest where
  model_name : Text
  api_key : Text
  messages : List (Text × Text)
deriving DecidableEq

/-- What the submit handler displays: an answer (with its displayed
follow-up questions), an `st.error`, or an `st.warning`. -/
inductive Outcome
  | answered (main_response : Text) (follow_ups : List Text)
  | errorShown (msg : Text)
  | warningShown (msg : Text)
deriving DecidableEq

/-- A call to an external collaborator made during one submission. -/
inductive ExtCall
  | searchCall (query : Text) (k : Nat)
  | llmCall (req : LLMRequest)
deriving DecidableEq

/-- The observable result of one click of the Submit button: what was
displayed, the conversation history afterwards, and the external calls made
(in order). -/
structure SubmitResult where
  outcome : Outcome
  conversation_history : List (Text × Text)
  calls : List ExtCall
deriving DecidableEq

/-- The state and collaborators visible to one click of the Submit button.
The vector store is modelled by its `similarity_search` function (query and
`k` to the ranked chunk texts), `none` when no document has been processed;
the LLM endpoint is an oracle from the request to either the response text
or the message of the raised exception.  The temperature slider (line 27) is
a real-valued UI setting; it is carried here as a rational number since the
handler never computes with it. -/
structure SubmitEnv where
  selected_model : Text
  temperature : Rat
  max_context_length : Nat
  retrieve_mode : RetrieveMode
  groq_api_key : Text
  vector_store : Option (Text → Nat → List Text)
  llm : LLMRequest → Except Text Text
  question : Text
  custom_question : Text
  conversation_history : List (Text × Text)

/-- Line 120: `question = custom_question if custom_question else question`
(Python truthiness: the empty string is falsy). -/
def resolved_question (env : SubmitEnv) : Text :=
  if env.custom_question ≠ [] then env.custom_question else env.question

/-- Lines 125 and 128: join the retrieved chunk texts with single spaces,
then `context[:max_context_length] if len(context) > max_context_length
else context`. -/
def build_context (max_context_length : Nat) (chunks : List Text) : Text :=
  let context := joinSpace chunks
  if context.length > max_context_length then context.take max_context_length
  else context

/-- The fixed instruction carried by the prompt template (line 134),
verbatim. -/
def instruction_text : Text :=
  "Answer like you are a airport domain expert when ask about fouth control period only give information about fourth control period nothing else and if asked about thirc ontrol period only goive information about third control period .when i ma asking about traffic need information from international and domestic and all its sub bifurcation.".data

/-- Lines 131-135: the prompt string. -/
def build_prompt (context question : Text) : Text :=
  "Context:\n".data ++ context ++ "\n\n".data ++
    "Question: ".data ++ question ++ "\n\n".data ++ instruction_text

/-- The warning shown on line 169, shared by both guard failures. -/
def warning_text : Text :=
  "Please upload and process a document first.".data

/-- The prefix of the error message shown on line 167. -/
def error_head : Text :=
  "Error generating response: ".data

/-- The single user-role message list of line 139. -/
def role_user : Text := "user".data

/-- The request the handler builds for the LLM (lines 124-139) given the
store's search function: retrieve the top 3 chunks for the resolved
question, assemble the bounded context and the prompt, and wrap it as one
user message for the selected model with the Groq credential. -/
def submit_request (env : SubmitEnv) (similarity_search : Text → Nat → List Text) :
    LLMRequest :=
  let question := resolved_question env
  let relevant_chunks := similarity_search question 3
  let context := build_context env.max_context_length relevant_chunks
  let prompt := build_prompt context question
  { model_name := env.selected_model
    api_key := env.groq_api_key
    messages := [(role_user, prompt)] }

/-- Lines 119-169: one click of the Submit button.  The guard on line 122 is
`if vector_store and question:`; inside the `try` the LLM is invoked once,
the response is parsed, displayed and appended to the history; a raised
exception is caught on line 166 and shown with its message, leaving the
history untouched; otherwise the shared warning of line 169 is shown. -/
def submit (env : SubmitEnv) : SubmitResult :=
  let question := resolved_question env
  match env.vector_store with
  | some similarity_search =>
    if question ≠ [] then
      let req := submit_request env similarity_search
      match env.llm req with
      | Except.ok response_text =>
        let main_response := (parseResponse response_text).1
        let follow_up_questions := (parseResponse response_text).2
        { outcome := Outcome.answered main_response (displayedFollowUps follow_up_questions)
          conversation_history := env.conversation_history ++ [(question, main_response)]
          calls := [ExtCall.searchCall question 3, ExtCall.llmCall req] }
      | Except.error e =>
        { outcome := Outcome.errorShown (error_head ++ e)
          conversation_history := env.conversation_history
          calls := [ExtCall.searchCall question 3, ExtCall.llmCall req] }
    else
      { outcome := Outcome.warningShown warning_text
        conversation_history := env.conversation_history
        calls := [] }
  | none =>
    { outcome := Outcome.warningShown warning_text
      conversation_history := env.conversation_history
      calls := [] }

/-! ### The document-processing loop (lines 45-66) -/

/-- One uploaded file: its name and the outcome of
`PdfReader(...)` / `page.extract_text()` concatenation (lines 49-50), which
either yields the document text or raises with a message. -/
structure UploadedFile where
  name : Text
  extract_result : Except Text Text

/-- The external collaborators of the processing loop: the
`RecursiveCharacterTextSplitter(chunk_size=2000, chunk_overlap=200)` (line
53) as a text-to-chunks oracle, and the outcome of the embedding call made
by `FAISS.from_texts` (lines 57-61) on a chunk batch. -/
structure IngestEnv where
  split_text : Text → List Text
  embed_result : List Text → Except Text Unit

/-- What is reported per file: `st.success` (line 64) or `st.error`
(line 66). -/
inductive FileReport
  | success (name : Text)
  | failure (name : Text) (err : Text)
deriving DecidableEq

/-- The name a report is about. -/
def report_name : FileReport → Text
  | FileReport.success n => n
  | FileReport.failure n _ => n

/-- `FAISS.from_texts(chunks, embeddings)`: the FAISS store is modelled by
the list of chunk texts it holds; the embedding call may raise. -/
def from_texts (env : IngestEnv) (chunks : List Text) : Except Text (List Text) :=
  match env.embed_result chunks with
  | Except.ok _ => Except.ok chunks
  | Except.error e => Except.error e

/-- Lines 49-61 for one file: extract the text, split it into chunks and
embed them into a fresh store — any raised exception propagates. -/
def ingest_result (env : IngestEnv) (f : UploadedFile) : Except Text (List Text) :=
  match f.extract_result with
  | Except.error e => Except.error e
  | Except.ok text => from_texts env (env.split_text text)

/-- Lines 48-66 for one file: on success the fresh store becomes the index
(first file) or is merged into it (`merge_from`, modelled as content
append); on an exception the index is left as it was and an error is
reported for this file only. -/
def process_file (env : IngestEnv) (vector_store : Option (List Text))
    (f : UploadedFile) : Option (List Text) × FileReport :=
  match ingest_result env f with
  | Except.ok temp_vector_store =>
    match vector_store with
    | none => (some temp_vector_store, FileReport.success f.name)
    | some vs => (some (vs ++ temp_vector_store), FileReport.success f.name)
  | Except.error e => (vector_store, FileReport.failure f.name e)

/-- Lines 44-66: the whole loop, starting from `vector_store = None`,
processing the uploaded files sequentially and collecting one report per
file. -/
def process_files (env : IngestEnv) (files : List UploadedFile) :
    Option (List Text) × List FileReport :=
  files.foldl
    (fun acc f =>
      let r := process_file env acc.1 f
      (r.1, acc.2 ++ [r.2]))
    (none, [])

/-! ### Sample environments used for concrete instantiations -/

/-- A sample similarity-search oracle. -/
def sample_search : Text → Nat → List Text :=
  fun _ _ => [("alpha").data, ("beta").data]

/-- A sample submit-time environment: one processed document, a predefined
question selected, no custom question, an LLM answering a fixed marker-free
text. -/
def sample_env : SubmitEnv :=
  { selected_model := ("llama-3.3-70b-versatile").data
    temperature := 3 / 10
    max_context_length := 3000
    retrieve_mode := RetrieveMode.textHybrid
    groq_api_key := ("groq-key").data
    vector_store := some sample_search
    llm := fun _ => Except.ok (("An answer.").data)
    question := ("Is there a declining trend in revenue?").data
    custom_question := []
    conversation_history := [] }

/-- The sample environment with an LLM that raises a rate-limit error. -/
def err_env : SubmitEnv :=
  { sample_env with llm := fun _ => Except.error (("429 rate limit").data) }

/-- A sample ingestion environment: a one-chunk splitter and an embedding
service that always succeeds. -/
def ing_env : IngestEnv :=
  { split_text := fun t => [t], embed_result := fun _ => Except.ok () }

/-- A sample file whose extraction succeeds. -/
def good_file : UploadedFile :=
  { name := ("a.pdf").data, extract_result := Except.ok (("alpha beta").data) }

/-- A sample file whose extraction raises. -/
def bad_file : UploadedFile :=
  { name := ("b.pdf").data, extract_result := Except.error (("parse error").data) }

/-! ### Helper lemmas about the string primitives -/

theorem marker_ne_nil : marker ≠ [] := by decide

theorem splitOnChar_ne_nil (ch : Char) (s : Text) : splitOnChar ch s ≠ [] := by
  induction s with
  | nil => simp [splitOnChar]
  | cons c rest ih =>
    by_cases hc : c = ch
    · simp [splitOnChar, hc]
    · cases hrest : splitOnChar ch rest with
      | nil => exact absurd hrest ih
      | cons h t => simp [splitOnChar, hc, hrest]

theorem splitOnChar_cons_of_ne (ch c : Char) (rest : Text) (h : Text)
    (t : List Text) (hc : c ≠ ch) (hrest : splitOnChar ch rest = h :: t) :
    splitOnChar ch (c :: rest) = (c :: h) :: t := by
  simp [splitOnChar, hc, hrest]

theorem splitOnChar_cons_self (ch : Char) (rest : Text) :
    splitOnChar ch (ch :: rest) = [] :: splitOnChar ch rest := by
  simp [splitOnChar]

theorem strip_cons_space {c : Char} (hc : pyIsSpace c = true) (x : Text) :
    stripChars (c :: x) = stripChars x := by
  simp [stripChars, List.dropWhile_cons, hc]

theorem strip_cons_nonspace {c : Char} (hc : ¬pyIsSpace c = true) (x : Text) :
    stripChars (c :: x) = dropTrailingSpace (c :: x) := by
  simp [stripChars, List.dropWhile_cons, hc]

theorem dropTrailing_cons_of_ne_nil (d : Char) {rest r : Text}
    (h : dropTrailingSpace rest = r) (hr : r ≠ []) :
    dropTrailingSpace (d :: rest) = d :: r := by
  obtain ⟨y, ys, hys⟩ := List.exists_cons_of_ne_nil hr
  simp only [dropTrailingSpace, h, hys]

theorem dropTrailing_snoc (xs : Text) (c : Char) :
    dropTrailingSpace (xs ++ [c]) =
      if pyIsSpace c then dropTrailingSpace xs else xs ++ [c] := by
  induction xs with
  | nil => by_cases hc : pyIsSpace c <;> simp [dropTrailingSpace, hc]
  | cons d xs2 ih =>
    by_cases hc : pyIsSpace c
    · simp only [if_pos hc] at ih ⊢
      simp only [List.cons_append, dropTrailingSpace, List.append_eq, ih]
    · simp only [if_neg hc] at ih ⊢
      rw [List.cons_append,
        dropTrailing_cons_of_ne_nil d ih
          (List.append_ne_nil_of_right_ne_nil xs2 (by simp : ([c] : Text) ≠ []))]

theorem strip_snoc_space {c : Char} (hc : pyIsSpace c = true) (x : Text) :
    stripChars (x ++ [c]) = stripChars x := by
  induction x with
  | nil =>
    simp only [List.nil_append]
    rw [strip_cons_space hc]
  | cons d x2 ih =>
    by_cases hd : pyIsSpace d
    · rw [List.cons_append, strip_cons_space hd, ih, strip_cons_space hd]
    · rw [List.cons_append, strip_cons_nonspace hd,
        show (d :: (x2 ++ [c]) : Text) = (d :: x2) ++ [c] by simp,
        dropTrailing_snoc, if_pos hc, ← strip_cons_nonspace hd]

theorem displayed_cons_congr {x y : Text} (L : List Text)
    (h : stripChars x = stripChars y) :
    displayedFollowUps (x :: L) = displayedFollowUps (y :: L) := by
  simp [displayedFollowUps, h]

theorem displayed_dropWhile (s : Text) :
    displayedFollowUps (splitOnChar '\n' (List.dropWhile pyIsSpace s)) =
      displayedFollowUps (splitOnChar '\n' s) := by
  induction s with
  | nil => rfl
  | cons c rest ih =>
    rw [List.dropWhile_cons]
    by_cases hc : pyIsSpace c
    · rw [if_pos hc]
      by_cases hnl : c = '\n'
      · subst hnl
        have : splitOnChar '\n' ('\n' :: rest) = [] :: splitOnChar '\n' rest := by
          simp [splitOnChar]
        rw [this, ih]
        simp [displayedFollowUps, stripChars, dropTrailingSpace]
      · obtain ⟨h, t, hht⟩ := List.exists_cons_of_ne_nil (splitOnChar_ne_nil '\n' rest)
        rw [splitOnChar_cons_of_ne '\n' c rest h t hnl hht, ih, hht]
        exact displayed_cons_congr t (strip_cons_space hc h).symm
    · rw [if_neg hc]

theorem appendLast_cons_cons (c : Char) (x : Text) (L : List Text) (hL : L ≠ []) :
    appendLast c (x :: L) = x :: appendLast c L := by
  cases L with
  | nil => exact absurd rfl hL
  | cons y t => rfl

theorem lines_snoc (ch c : Char) (xs : Text) :
    splitOnChar ch (xs ++ [c]) =
      if c = ch then splitOnChar ch xs ++ [[]] else appendLast c (splitOnChar ch xs) := by
  induction xs with
  | nil =>
    by_cases hc : c = ch <;> simp [splitOnChar, appendLast, hc]
  | cons d xs2 ih =>
    by_cases hd : d = ch
    · rw [hd]
      by_cases hc : c = ch
      · rw [if_pos hc] at ih ⊢
        rw [List.cons_append, splitOnChar_cons_self, ih, splitOnChar_cons_self,
          List.cons_append]
      · rw [if_neg hc] at ih ⊢
        rw [List.cons_append, splitOnChar_cons_self, ih, splitOnChar_cons_self,
          appendLast_cons_cons c [] (splitOnChar ch xs2) (splitOnChar_ne_nil ch xs2)]
    · obtain ⟨h2, t2, h2t2⟩ := List.exists_cons_of_ne_nil (splitOnChar_ne_nil ch xs2)
      by_cases hc : c = ch
      · rw [if_pos hc] at ih ⊢
        rw [List.cons_append,
          splitOnChar_cons_of_ne ch d (xs2 ++ [c]) h2 (t2 ++ [[]])
            hd (by rw [ih, h2t2, List.cons_append]),
          splitOnChar_cons_of_ne ch d xs2 h2 t2 hd h2t2, List.cons_append]
      · rw [if_neg hc] at ih ⊢
        cases t2 with
        | nil =>
          have hits : appendLast c (splitOnChar ch xs2) = [h2 ++ [c]] := by
            rw [h2t2]; rfl
          rw [List.cons_append,
            splitOnChar_cons_of_ne ch d (xs2 ++ [c]) (h2 ++ [c]) []
              hd (by rw [ih, hits]),
            splitOnChar_cons_of_ne ch d xs2 h2 [] hd h2t2]
          rfl
        | cons u us =>
          have hits : appendLast c (splitOnChar ch xs2) = h2 :: appendLast c (u :: us) := by
            rw [h2t2]
            exact appendLast_cons_cons c h2 (u :: us) (by simp)
          rw [List.cons_append,
            splitOnChar_cons_of_ne ch d (xs2 ++ [c]) h2 (appendLast c (u :: us))
              hd (by rw [ih, hits]),
            splitOnChar_cons_of_ne ch d xs2 h2 (u :: us) hd h2t2,
            appendLast_cons_cons c (d :: h2) (u :: us) (by simp)]

theorem displayed_snoc_space {c : Char} (hc : pyIsSpace c = true) (L : List Text) :
    displayedFollowUps (appendLast c L) = displayedFollowUps L := by
  induction L with
  | nil =>
    have h1 : stripChars [c] = [] := by
      rw [show ([c] : Text) = c :: [] from rfl, strip_cons_space hc]
      rfl
    simp [appendLast, displayedFollowUps, h1]
  | cons x L2 ih =>
    cases L2 with
    | nil =>
      have := strip_snoc_space hc x
      simp [appendLast, displayedFollowUps, this]
    | cons y t =>
      rw [appendLast_cons_cons c x (y :: t) (by simp)]
      simp only [displayedFollowUps, ih]

theorem displayed_snoc_blank (L : List Text) :
    displayedFollowUps (L ++ [[]]) = displayedFollowUps L := by
  induction L with
  | nil => simp [displayedFollowUps, stripChars, dropTrailingSpace]
  | cons x L2 ih =>
    simp only [List.cons_append, displayedFollowUps, List.append_eq, ih]

theorem displayed_dropTrailing (s : Text) :
    displayedFollowUps (splitOnChar '\n' (dropTrailingSpace s)) =
      displayedFollowUps (splitOnChar '\n' s) := by
  induction s using List.reverseRecOn with
  | nil => rfl
  | append_singleton xs c ih =>
    rw [dropTrailing_snoc]
    by_cases hc : pyIsSpace c
    · rw [if_pos hc, ih, lines_snoc]
      by_cases hnl : c = '\n'
      · rw [if_pos hnl, displayed_snoc_blank]
      · rw [if_neg hnl, displayed_snoc_space hc]
    · rw [if_neg hc]

theorem displayed_strip (s : Text) :
    displayedFollowUps (splitOnChar '\n' (stripChars s)) =
      displayedFollowUps (splitOnChar '\n' s) := by
  rw [stripChars, displayed_dropTrailing, displayed_dropWhile]

theorem displayedFollowUps_eq_filter (L : List Text) :
    displayedFollowUps L = (L.map stripChars).filter (fun q => !q.isEmpty) := by
  induction L with
  | nil => rfl
  | cons x L2 ih =>
    by_cases h : stripChars x = []
    · simp [displayedFollowUps, List.filter, h, ih]
    · obtain ⟨a, as, hx⟩ := List.exists_cons_of_ne_nil h
      simp [displayedFollowUps, List.filter, h, hx, ih]

/-! ### Helper lemmas about marker splitting -/

theorem contains_of_splitFirst_some {pat s : Text} {p : Text × Text}
    (h : splitFirst pat s = some p) : containsSub pat s = true := by
  induction s generalizing p with
  | nil => simp [splitFirst] at h
  | cons c rest ih =>
    by_cases hpre : pat.isPrefixOf (c :: rest)
    · simp [containsSub, hpre]
    · simp only [splitFirst, if_neg hpre, Option.map_eq_some'] at h
      obtain ⟨q, hq, _⟩ := h
      simp [containsSub, hpre, ih hq]

theorem splitFirst_none_of_not_contains {pat s : Text}
    (h : containsSub pat s = false) : splitFirst pat s = none := by
  induction s with
  | nil => rfl
  | cons c rest ih =>
    simp only [containsSub, Bool.or_eq_false_iff] at h
    simp [splitFirst, h.1, ih h.2]

theorem splitFirst_isSome_of_contains {pat s : Text} (hp : pat ≠ [])
    (h : containsSub pat s = true) : (splitFirst pat s).isSome = true := by
  induction s with
  | nil =>
    simp only [containsSub, List.isEmpty_iff] at h
    exact absurd h hp
  | cons c rest ih =>
    by_cases hpre : pat.isPrefixOf (c :: rest)
    · simp [splitFirst, hpre]
    · simp only [containsSub, Bool.or_eq_true] at h
      rcases h with h | h
      · exact absurd h hpre
      · simp [splitFirst, hpre, Option.isSome_map]
        exact ih h

theorem splitOnList_of_none {pat s : Text} (h : splitFirst pat s = none) :
    splitOnList pat s = [s] := by
  rw [splitOnList.eq_def]
  split
  · rfl
  · rename_i bef aft heq
    rw [h] at heq
    exact absurd heq (by simp)

theorem splitOnList_of_some {pat s bef aft : Text} (hp : pat ≠ [])
    (h : splitFirst pat s = some (bef, aft)) :
    splitOnList pat s = bef :: splitOnList pat aft := by
  rw [splitOnList.eq_def]
  split
  · rename_i heq
    rw [h] at heq
    exact absurd heq (by simp)
  · rename_i bef2 aft2 heq
    rw [h] at heq
    injection heq with heq2
    injection heq2 with hb ha
    subst hb; subst ha
    rw [dif_neg hp]

theorem parse_between_markers (t bef mid rest2 aft : Text)
    (h1 : splitFirst marker t = some (bef, rest2))
    (h2 : splitFirst marker rest2 = some (mid, aft)) :
    parseResponse t = (bef, splitOnChar '\n' (stripChars mid)) := by
  have hcon : containsSub marker t = true := contains_of_splitFirst_some h1
  have hsplit : splitOnList marker t = bef :: mid :: splitOnList marker aft := by
    rw [splitOnList_of_some marker_ne_nil h1, splitOnList_of_some marker_ne_nil h2]
  simp [parseResponse, hcon, hsplit]

/-! ### Claim C1 -/

/-- Claim C1 (corrected): for every raw answer text in which the marker
"Follow-up questions:" occurs at most once, the Response Parser (code
behaviour: lines 142-149 plus the trimming/blank-dropping display of lines
155-159) agrees with the specification: if the marker is present, the main
answer is everything before it and the follow-up list is the text after it
split on newlines with each candidate trimmed and blank lines dropped; if
the marker is absent, the main answer is the whole text and the follow-up
list is empty; the parse is total.  (The original claim quantified over all
texts; it fails when the marker occurs more than once, see the
counterexample.) -/
theorem claim1_theorem (t : Text) (h : marker_at_most_once t = true) :
    parse_displayed t = parser_spec t := by
  cases hsf : splitFirst marker t with
  | none =>
    have hcon : containsSub marker t = false := by
      cases hb : containsSub marker t with
      | false => rfl
      | true =>
        have hs := splitFirst_isSome_of_contains marker_ne_nil hb
        rw [hsf] at hs
        simp at hs
    simp [parse_displayed, parseResponse, parser_spec, hcon, hsf, displayedFollowUps]
  | some p =>
    obtain ⟨bef, aft⟩ := p
    have haft : containsSub marker aft = false := by
      unfold marker_at_most_once at h
      rw [hsf] at h
      simpa using h
    have hcon : containsSub marker t = true := contains_of_splitFirst_some hsf
    have hsplit : splitOnList marker t = [bef, aft] :=
      (splitOnList_of_some marker_ne_nil hsf).trans
        (by rw [splitOnList_of_none (splitFirst_none_of_not_contains haft)])
    have hfus : displayedFollowUps (splitOnChar '\n' (stripChars aft)) =
        ((splitOnChar '\n' aft).map stripChars).filter (fun q => !q.isEmpty) := by
      rw [displayed_strip, displayedFollowUps_eq_filter]
    simp [parse_displayed, parseResponse, parser_spec, hcon, hsf, hsplit, hfus]

/-- Claim C1, counterexample to the original universal statement: on a raw
answer in which the marker occurs twice, the code keeps only the text
between the two occurrences as follow-up material, while the claim's rule
(everything after the marker, split on newlines, trimmed, blanks dropped)
would also keep the second marker line and what follows it. -/
theorem claim1_counterexample :
    parse_displayed (("A\nFollow-up questions:\nQ1\nFollow-up questions:\nQ2").data) ≠
      parser_spec (("A\nFollow-up questions:\nQ1\nFollow-up questions:\nQ2").data) ∧
    parse_displayed (("A\nFollow-up questions:\nQ1\nFollow-up questions:\nQ2").data) =
      (("A\n").data, [("Q1").data]) ∧
    (parser_spec (("A\nFollow-up questions:\nQ1\nFollow-up questions:\nQ2").data)).2 =
      [("Q1").data, ("Follow-up questions:").data, ("Q2").data] := by
  have hp := parse_between_markers
    (("A\nFollow-up questions:\nQ1\nFollow-up questions:\nQ2").data)
    (("A\n").data) (("\nQ1\n").data)
    (("\nQ1\nFollow-up questions:\nQ2").data) (("\nQ2").data)
    (by decide) (by decide)
  have hpd : parse_displayed (("A\nFollow-up questions:\nQ1\nFollow-up questions:\nQ2").data) =
      (("A\n").data, [("Q1").data]) := by
    unfold parse_displayed
    rw [hp]
    decide
  refine ⟨?_, hpd, by decide⟩
  rw [hpd]
  decide

/-- Claim C1, witness: the spec's round-trip example, a text with exactly
one marker occurrence, parsed as the claim demands. -/
theorem claim1_witness :
    marker_at_most_once (("Answer text\nFollow-up questions:\nQ1\nQ2").data) = true ∧
    parse_displayed (("Answer text\nFollow-up questions:\nQ1\nQ2").data) =
      parser_spec (("Answer text\nFollow-up questions:\nQ1\nQ2").data) ∧
    parser_spec (("Answer text\nFollow-up questions:\nQ1\nQ2").data) =
      (("Answer text\n").data, [("Q1").data, ("Q2").data]) :=
  ⟨by decide,
    claim1_theorem (("Answer text\nFollow-up questions:\nQ1\nQ2").data) (by decide),
    by decide⟩

/-! ### Claim C9 -/

/-- Claim C9 (confirmed): when the marker occurs more than once — the text
decomposes as a first occurrence splitting off `bef`, and the remainder
`rest2` again contains the marker, splitting into `mid` and `aft` — the
parser's whole output is determined by `bef` (the text before the first
occurrence, the main answer) and `mid` (the text strictly between the first
and second occurrences, the only source of follow-up candidates): everything
after the second occurrence (`aft`) is discarded entirely. -/
theorem claim9_theorem (t bef mid rest2 aft : Text)
    (h1 : splitFirst marker t = some (bef, rest2))
    (h2 : splitFirst marker rest2 = some (mid, aft)) :
    parseResponse t = (bef, splitOnChar '\n' (stripChars mid)) ∧
    parse_displayed t = (bef, displayedFollowUps (splitOnChar '\n' (stripChars mid))) := by
  have hp := parse_between_markers t bef mid rest2 aft h1 h2
  exact ⟨hp, by unfold parse_displayed; rw [hp]⟩

/-- Claim C9, witness: the double-marker text, where the parser keeps "A\n"
as main answer and builds the follow-up list from the text between the two
markers only. -/
theorem claim9_witness :
    parseResponse (("A\nFollow-up questions:\nQ1\nFollow-up questions:\nQ2").data) =
      (("A\n").data, splitOnChar '\n' (stripChars (("\nQ1\n").data))) ∧
    parse_displayed (("A\nFollow-up questions:\nQ1\nFollow-up questions:\nQ2").data) =
      (("A\n").data, displayedFollowUps (splitOnChar '\n' (stripChars (("\nQ1\n").data)))) :=
  claim9_theorem (("A\nFollow-up questions:\nQ1\nFollow-up questions:\nQ2").data)
    (("A\n").data) (("\nQ1\n").data)
    (("\nQ1\nFollow-up questions:\nQ2").data) (("\nQ2").data)
    (by decide) (by decide)

/-! ### Claim C2 -/

theorem joinSpace_cons₂ (x y : Text) (t : List Text) :
    joinSpace (x :: y :: t) = x ++ ' ' :: joinSpace (y :: t) := rfl

theorem joinSpace_eq_intercalate (chunks : List Text) :
    joinSpace chunks = List.intercalate [' '] chunks := by
  induction chunks with
  | nil => rfl
  | cons x xs ih =>
    cases xs with
    | nil => simp [joinSpace, List.intercalate]
    | cons y t =>
      simp only [List.intercalate, List.intersperse_cons₂, List.flatten_cons] at ih ⊢
      rw [joinSpace_cons₂, ih]
      simp

/-- Claim C2 (confirmed): the Prompt Builder context is the chunk texts
joined with single-space separators in the given order (`joinSpace` agrees
with the library `intercalate` on a one-space separator), and the context
is the hard cut of that concatenation to `max_context_length` characters:
its length is `min max_context_length (length of the concatenation)`, so a
longer concatenation is cut to exactly `max_context_length` characters, and
one that is not longer is left unchanged. -/
theorem claim2_theorem (chunks : List Text) (max_context_length : Nat) :
    joinSpace chunks = List.intercalate [' '] chunks ∧
    build_context max_context_length chunks = (joinSpace chunks).take max_context_length ∧
    (build_context max_context_length chunks).length =
      min max_context_length (joinSpace chunks).length ∧
    ((joinSpace chunks).length ≤ max_context_length →
      build_context max_context_length chunks = joinSpace chunks) := by
  have h2 : build_context max_context_length chunks =
      (joinSpace chunks).take max_context_length := by
    unfold build_context
    by_cases h : (joinSpace chunks).length > max_context_length
    · rw [if_pos h]
    · rw [if_neg h, List.take_of_length_le (Nat.le_of_not_lt h)]
  refine ⟨joinSpace_eq_intercalate chunks, h2, ?_, ?_⟩
  · rw [h2, List.length_take]
  · intro hle
    rw [h2, List.take_of_length_le hle]

/-- Claim C2, witness: a concrete short batch whose joined context fits the
limit and is left unchanged. -/
theorem claim2_witness :
    build_context 10 [("ab").data, ("c").data] = joinSpace [("ab").data, ("c").data] :=
  (claim2_theorem [("ab").data, ("c").data] 10).2.2.2 (by decide)

/-! ### Claim C3 -/

/-- Claim C3 (confirmed): when the index is present, the question non-empty
and the LLM call raises, the handler shows the error with the underlying
message appended to "Error generating response: ", the conversation history
is exactly what it was before the submission, no answer is recorded, and
the call list holds a single LLM invocation — no retry. -/
theorem claim3_theorem (env : SubmitEnv) (srch : Text → Nat → List Text) (e : Text)
    (hs : env.vector_store = some srch)
    (hq : resolved_question env ≠ [])
    (he : env.llm (submit_request env srch) = Except.error e) :
    submit env =
      { outcome := Outcome.errorShown (error_head ++ e)
        conversation_history := env.conversation_history
        calls := [ExtCall.searchCall (resolved_question env) 3,
                  ExtCall.llmCall (submit_request env srch)] } := by
  simp [submit, hs, hq, he]

/-- Claim C3, witness: a concrete submission whose LLM oracle raises a
rate-limit error. -/
theorem claim3_witness :
    submit err_env =
      { outcome := Outcome.errorShown (error_head ++ ("429 rate limit").data)
        conversation_history := []
        calls := [ExtCall.searchCall (resolved_question err_env) 3,
                  ExtCall.llmCall (submit_request err_env sample_search)] } :=
  claim3_theorem err_env sample_search (("429 rate limit").data) rfl (by decide) rfl

/-! ### Claim C4 -/

theorem process_reports_names (env : IngestEnv) (files : List UploadedFile) :
    ∀ acc : Option (List Text) × List FileReport,
      ((files.foldl (fun acc f =>
          let r := process_file env acc.1 f
          (r.1, acc.2 ++ [r.2])) acc).2).map report_name =
        acc.2.map report_name ++ files.map UploadedFile.name := by
  induction files with
  | nil => intro acc; simp
  | cons f fs ih =>
    intro acc
    rw [List.foldl_cons, ih]
    have hname : report_name (process_file env acc.1 f).2 = f.name := by
      cases hr : ingest_result env f with
      | ok v => cases acc.1 <;> simp [process_file, hr, report_name]
      | error e => simp [process_file, hr, report_name]
    simp [hname]

/-- Claim C4 (confirmed): in the sequential processing loop, a file whose
extraction or embedding raises leaves the index exactly as it was and
produces a failure report for that file only; every file of a batch gets
its own report in order (no file is skipped after a failure); and for a
batch of two files where the first succeeds and the second fails, the
resulting index holds exactly the first file's chunks and the reports are
success then failure. -/
theorem claim4_theorem (env : IngestEnv) (vs : Option (List Text))
    (f f1 f2 : UploadedFile) (files : List UploadedFile) (e1 e2 t1 : Text)
    (hf : ingest_result env f = Except.error e1)
    (h1 : f1.extract_result = Except.ok t1)
    (h1e : env.embed_result (env.split_text t1) = Except.ok ())
    (h2 : ingest_result env f2 = Except.error e2) :
    process_file env vs f = (vs, FileReport.failure f.name e1) ∧
    (process_files env files).2.map report_name = files.map UploadedFile.name ∧
    process_files env [f1, f2] =
      (some (env.split_text t1),
       [FileReport.success f1.name, FileReport.failure f2.name e2]) := by
  refine ⟨by simp [process_file, hf], ?_, ?_⟩
  · rw [process_files, process_reports_names]
    simp
  · have hi1 : ingest_result env f1 = Except.ok (env.split_text t1) := by
      simp [ingest_result, from_texts, h1, h1e]
    simp [process_files, process_file, hi1, h2]

/-- Claim C4, witness: a two-file batch whose second file fails to parse. -/
theorem claim4_witness :
    process_file ing_env (some [("x").data]) bad_file =
      (some [("x").data], FileReport.failure bad_file.name (("parse error").data)) ∧
    (process_files ing_env [good_file, bad_file]).2.map report_name =
      [good_file, bad_file].map UploadedFile.name ∧
    process_files ing_env [good_file, bad_file] =
      (some (ing_env.split_text (("alpha beta").data)),
       [FileReport.success good_file.name,
        FileReport.failure bad_file.name (("parse error").data)]) :=
  claim4_theorem ing_env (some [("x").data]) bad_file good_file bad_file
    [good_file, bad_file] (("parse error").data) (("parse error").data)
    (("alpha beta").data) rfl rfl rfl rfl

/-! ### Claim C5 -/

/-- Claim C5 (corrected): submitting with a non-null index and an empty
resolved question surfaces a warning — the shared message `warning_text`,
which tells the user to upload a document rather than a question-specific
message — and makes no retrieval, embedding or LLM call (the call list is
empty) and leaves the conversation history unchanged. -/
theorem claim5_theorem (env : SubmitEnv) (srch : Text → Nat → List Text)
    (hs : env.vector_store = some srch) (hq : resolved_question env = []) :
    submit env =
      { outcome := Outcome.warningShown warning_text
        conversation_history := env.conversation_history
        calls := [] } := by
  simp [submit, hs, hq]

/-- Claim C5, counterexample to the original wording: with an index present
and no question at all, the warning actually shown is the
document-upload message, whose text does not even contain the word
"question" — not a "no question" warning. -/
theorem claim5_counterexample :
    (submit { sample_env with question := [] }).outcome =
      Outcome.warningShown (("Please upload and process a document first.").data) ∧
    containsSub (("question").data)
      (("Please upload and process a document first.").data) = false ∧
    (submit { sample_env with question := [] }).calls = [] ∧
    (submit { sample_env with question := [] }).conversation_history = [] := by
  refine ⟨by decide, by decide, by decide, by decide⟩

/-- Claim C5, witness: the concrete empty-question submission against a
non-null index. -/
theorem claim5_witness :
    submit { sample_env with question := [] } =
      { outcome := Outcome.warningShown warning_text
        conversation_history := []
        calls := [] } :=
  claim5_theorem { sample_env with question := [] } sample_search rfl rfl

/-! ### Claim C6 -/

/-- Claim C6 (confirmed): two submissions differing only in the
retrieve-mode setting are indistinguishable — same retrieval call, same
chunks, same outcome, same history: the setting has no effect on the
handler at all. -/
theorem claim6_theorem (env : SubmitEnv) (m1 m2 : RetrieveMode) :
    submit { env with retrieve_mode := m1 } = submit { env with retrieve_mode := m2 } := rfl

/-! ### Claim C7 -/

/-- Claim C7, counterexample to the original claim: two concrete
submissions that differ only in the temperature setting (0 versus 1)
produce identical results and, in particular, identical LLM requests — the
temperature is not forwarded with the completion request. -/
theorem claim7_counterexample :
    submit { sample_env with temperature := 0 } =
      submit { sample_env with temperature := 1 } ∧
    (submit { sample_env with temperature := 0 }).calls =
      (submit { sample_env with temperature := 1 }).calls :=
  ⟨rfl, rfl⟩

/-- Claim C7 (corrected): the request to the external LLM is parameterized
by the selected model identifier, the API credential and the prompt (one
user-role message) only; the user-selected temperature is not forwarded —
submissions differing only in temperature behave identically. -/
theorem claim7_theorem (env : SubmitEnv) (srch : Text → Nat → List Text)
    (hs : env.vector_store = some srch) (hq : resolved_question env ≠ []) :
    (∀ t : Rat, submit { env with temperature := t } = submit env) ∧
    submit_request env srch =
      { model_name := env.selected_model
        api_key := env.groq_api_key
        messages := [(role_user,
          build_prompt
            (build_context env.max_context_length (srch (resolved_question env) 3))
            (resolved_question env))] } ∧
    (submit env).calls =
      [ExtCall.searchCall (resolved_question env) 3,
       ExtCall.llmCall (submit_request env srch)] := by
  refine ⟨fun t => rfl, rfl, ?_⟩
  cases hr : env.llm (submit_request env srch) with
  | ok r => simp [submit, hs, hq, hr]
  | error e => simp [submit, hs, hq, hr]

/-- Claim C7, witness: the sample submission, whose request carries the
model, credential and prompt and is unchanged under any temperature. -/
theorem claim7_witness :
    (∀ t : Rat, submit { sample_env with temperature := t } = submit sample_env) ∧
    submit_request sample_env sample_search =
      { model_name := sample_env.selected_model
        api_key := sample_env.groq_api_key
        messages := [(role_user,
          build_prompt
            (build_context sample_env.max_context_length
              (sample_search (resolved_question sample_env) 3))
            (resolved_question sample_env))] } ∧
    (submit sample_env).calls =
      [ExtCall.searchCall (resolved_question sample_env) 3,
       ExtCall.llmCall (submit_request sample_env sample_search)] :=
  claim7_theorem sample_env sample_search rfl (by decide)

/-! ### Claim C8 -/

/-- Claim C8 (confirmed): when a non-empty custom question is typed, it is
the question the handler resolves to, the predefined selection has no
influence on the result, the retrieval query is the custom text, and the
conversation entry recorded on success pairs the custom text with the
parsed main answer.  (The predefined selection is used only when the custom
text is empty, which is the complementary branch of `resolved_question`.) -/
theorem claim8_theorem (env : SubmitEnv) (srch : Text → Nat → List Text)
    (hs : env.vector_store = some srch) (hc : env.custom_question ≠ []) :
    resolved_question env = env.custom_question ∧
    (∀ p : Text, submit { env with question := p } = submit env) ∧
    (submit env).calls.head? = some (ExtCall.searchCall env.custom_question 3) ∧
    (∀ r : Text, env.llm (submit_request env srch) = Except.ok r →
      (submit env).conversation_history =
        env.conversation_history ++ [(env.custom_question, (parseResponse r).1)]) := by
  have hres : resolved_question env = env.custom_question := by
    simp [resolved_question, hc]
  have hq : resolved_question env ≠ [] := by rw [hres]; exact hc
  refine ⟨hres, ?_, ?_, ?_⟩
  · intro p
    have hq1 : resolved_question { env with question := p } = resolved_question env := by
      simp [resolved_question, hc]
    simp [submit, submit_request, hq1]
  · cases hr : env.llm (submit_request env srch) with
    | ok r => simp [submit, hs, hq, hr, hres, hc]
    | error e => simp [submit, hs, hq, hr, hres, hc]
  · intro r hr
    simp [submit, hs, hq, hr, hres, hc]

/-- Claim C8, witness: a submission with both a predefined selection and a
typed custom question. -/
theorem claim8_witness :
    resolved_question { sample_env with custom_question := ("What about expenses?").data } =
      ({ sample_env with custom_question := ("What about expenses?").data}).custom_question ∧
    (∀ p : Text,
      submit { { sample_env with custom_question := ("What about expenses?").data }
                 with question := p } =
        submit { sample_env with custom_question := ("What about expenses?").data }) ∧
    (submit { sample_env with custom_question := ("What about expenses?").data }).calls.head? =
      some (ExtCall.searchCall
        ({ sample_env with custom_question := ("What about expenses?").data }).custom_question 3) ∧
    (∀ r : Text,
      ({ sample_env with custom_question := ("What about expenses?").data }).llm
          (submit_request { sample_env with custom_question := ("What about expenses?").data }
            sample_search) = Except.ok r →
      (submit { sample_env with custom_question := ("What about expenses?").data
        }).conversation_history =
        ({ sample_env with custom_question := ("What about expenses?").data
          }).conversation_history ++
          [(({ sample_env with custom_question := ("What about expenses?").data
            }).custom_question, (parseResponse r).1)]) :=
  claim8_theorem { sample_env with custom_question := ("What about expenses?").data }
    sample_search rfl (by decide)

/-! ### Claim C10 -/

/-- Claim C10 (confirmed): the handler guards both failure cases — no
indexed document, or an empty resolved question — with the same branch and
the same literal warning "Please upload and process a document first."; in
either case no external call is made and the history is unchanged. -/
theorem claim10_theorem (env : SubmitEnv)
    (h : env.vector_store = none ∨ resolved_question env = []) :
    submit env =
      { outcome :=
          Outcome.warningShown (("Please upload and process a document first.").data)
        conversation_history := env.conversation_history
        calls := [] } := by
  rcases h with h | h
  · simp [submit, h, warning_text]
  · cases hvs : env.vector_store with
    | none => simp [submit, hvs, warning_text]
    | some s => simp [submit, hvs, h, warning_text]

/-- Claim C10, witness: a submission with no processed document. -/
theorem claim10_witness :
    submit { sample_env with vector_store := none } =
      { outcome :=
          Outcome.warningShown (("Please upload and process a document first.").data)
        conversation_history := []
        calls := [] } :=
  claim10_theorem { sample_env with vector_store := none } (Or.inl rfl)

end FDD
